import Mathlib

/-!
A verification development for the `with` interactive command wrapper.

The Rust sources are embedded shallowly:

* `src/parser.rs` — the command-interpretation engine (`CommandAction`,
  `TargetContext`, `EXIT_COMMANDS`, `parse_cmd`).  `parse_cmd` delegates
  word splitting to the external `shell_words` crate; that dependency is
  modelled here by `shellSplit`, a faithful transcription of the crate's
  published state machine (states Delimiter / Backslash / Unquoted /
  UnquotedBackslash / SingleQuoted / DoubleQuoted / DoubleQuotedBackslash /
  Comment; an unterminated quote yields the error "missing closing quote").
* `src/executor.rs` — `compute_next_stack` and the post-wait decision logic
  of `execute_child_process` (the sentinel exit status 127).
* `src/main.rs` — the startup argument validation of `main`.
* `src/context.rs` — `parse_git_head`, including the possibility of a Rust
  byte-slice panic, modelled explicitly with `RustOutcome`.

Rust `&str` values are modelled as Lean `String`s; where the Rust code
works with UTF-8 byte lengths and byte slices (`s.len()`, `s[..7]`,
`s[1..]`) the embedding computes the byte arithmetic explicitly from the
character sequence (`charBytes`, `strBytes`, `takeBytesAux`).  `trim` is
modelled by `rustTrim` (ASCII whitespace; the concrete inputs used in
the theorems below contain no exotic Unicode whitespace).  The
`cfg(windows)` backslash replacement in `parse_cmd` is not modelled: the
embedding is of the non-Windows build.
-/

namespace WithWrapper

/-- The `CommandAction` enum of `src/parser.rs` (lines 3–14), one
constructor per Rust variant, in source order. -/
inductive CommandAction where
  | execute (program : String) (args : List String)
  | changeDirectory (target : Option String)
  | help
  | clear (args : List String)
  | pwd (args : List String)
  | history
  | doNothing
  | exit
  | error (msg : String)
  deriving DecidableEq, Repr

/-- The `TargetContext` struct of `src/parser.rs` (lines 16–20). -/
structure TargetContext where
  program : String
  args : List String
  deriving DecidableEq, Repr

/-- `EXIT_COMMANDS` of `src/parser.rs` line 23: the single list of exit
keywords checked against the raw trimmed line. -/
def EXIT_COMMANDS : List String := ["e", "q", "exit", "quit"]

/-- Whitespace test used by `rustTrim`. -/
def isWsChar (c : Char) : Bool := c = ' ' ∨ c = '\t' ∨ c = '\n' ∨ c = '\r'

/-- Model of Rust `str::trim`: remove leading and trailing whitespace
(restricted here to the ASCII whitespace characters, which covers every
input considered in this development). -/
def rustTrim (s : String) : String :=
  String.mk (((s.data.dropWhile isWsChar).reverse.dropWhile isWsChar).reverse)

/-- The state machine of the external `shell_words` crate's `split`
function, which `parse_cmd` calls at `src/parser.rs` line 43.  The crate
is not part of this repository; this is a transcription of its published
algorithm (POSIX-like word splitting with single quotes, double quotes,
backslash escapes and `#` comments). -/
inductive SplitState where
  | delimiter
  | backslash
  | unquoted
  | unquotedBackslash
  | singleQuoted
  | doubleQuoted
  | doubleQuotedBackslash
  | comment
  deriving DecidableEq, Repr

/-- One character literal written via its code point to keep the source
free of the backquote character: the backquote, U+0060. -/
def backquoteChar : Char := Char.ofNat 96

/-- The main loop of `shell_words::split`: consumes the input character
by character, threading the current state, the word being accumulated and
the list of finished words.  Each equation mirrors one `match` arm of the
crate's loop; reaching the end of input inside a quote is the
`ParseError`, whose `Display` text is "missing closing quote". -/
def splitLoop : List Char → SplitState → String → List String →
    Except String (List String)
  | [], .delimiter, _, words => Except.ok words
  | [], .backslash, word, words => Except.ok (words ++ [word.push '\\'])
  | [], .unquoted, word, words => Except.ok (words ++ [word])
  | [], .unquotedBackslash, word, words => Except.ok (words ++ [word.push '\\'])
  | [], .singleQuoted, _, _ => Except.error "missing closing quote"
  | [], .doubleQuoted, _, _ => Except.error "missing closing quote"
  | [], .doubleQuotedBackslash, _, _ => Except.error "missing closing quote"
  | [], .comment, _, words => Except.ok words
  | c :: cs, .delimiter, word, words =>
      if c = '\'' then splitLoop cs .singleQuoted word words
      else if c = '"' then splitLoop cs .doubleQuoted word words
      else if c = '#' then splitLoop cs .comment word words
      else if c = '\\' then splitLoop cs .backslash word words
      else if c = '\t' ∨ c = ' ' ∨ c = '\n' then splitLoop cs .delimiter word words
      else splitLoop cs .unquoted (word.push c) words
  | c :: cs, .backslash, word, words =>
      if c = '\n' then splitLoop cs .delimiter word words
      else splitLoop cs .unquoted (word.push c) words
  | c :: cs, .unquoted, word, words =>
      if c = '\'' then splitLoop cs .singleQuoted word words
      else if c = '"' then splitLoop cs .doubleQuoted word words
      else if c = '\\' then splitLoop cs .unquotedBackslash word words
      else if c = '\t' ∨ c = ' ' ∨ c = '\n' then
        splitLoop cs .delimiter "" (words ++ [word])
      else splitLoop cs .unquoted (word.push c) words
  | c :: cs, .unquotedBackslash, word, words =>
      if c = '\n' then splitLoop cs .unquoted word words
      else splitLoop cs .unquoted (word.push c) words
  | c :: cs, .singleQuoted, word, words =>
      if c = '\'' then splitLoop cs .unquoted word words
      else splitLoop cs .singleQuoted (word.push c) words
  | c :: cs, .doubleQuoted, word, words =>
      if c = '"' then splitLoop cs .unquoted word words
      else if c = '\\' then splitLoop cs .doubleQuotedBackslash word words
      else splitLoop cs .doubleQuoted (word.push c) words
  | c :: cs, .doubleQuotedBackslash, word, words =>
      if c = '\n' then splitLoop cs .doubleQuoted word words
      else if c = '$' ∨ c = backquoteChar ∨ c = '"' ∨ c = '\\' then
        splitLoop cs .doubleQuoted (word.push c) words
      else splitLoop cs .doubleQuoted ((word.push '\\').push c) words
  | c :: cs, .comment, word, words =>
      if c = '\n' then splitLoop cs .delimiter word words
      else splitLoop cs .comment word words

/-- Model of `shell_words::split`. -/
def shellSplit (s : String) : Except String (List String) :=
  splitLoop s.data .delimiter "" []

/-- The token-dispatch portion of `parse_cmd` (`src/parser.rs` lines
48–113): everything after the exit-keyword check and tokenization,
factored out verbatim so that token-level facts can be stated directly.
The Rust byte tests on the first token (`s.starts_with('!')`,
`s.len() > 1`, `s[1..]`) are expressed on the character list; for a
token whose first character is the one-byte character `!`, byte length
exceeding one is equivalent to character length exceeding one, and the
byte slice `s[1..]` is exactly the character tail. -/
def parse_cmd_tokens : List String → Option TargetContext → CommandAction
  | [], context =>
      match context with
      | some ctx => CommandAction.execute ctx.program ctx.args
      | none => CommandAction.doNothing
  | first :: rest, context =>
      if first = "cd" then
        CommandAction.changeDirectory rest.head?
      else if first = "clear" ∨ first = "cls" then
        CommandAction.clear rest
      else if first = "pwd" then
        CommandAction.pwd rest
      else if first = "history" then
        CommandAction.history
      else if first = "help" then
        CommandAction.help
      else if first.data.head? = some '!' then
        if 1 < first.data.length then
          CommandAction.execute (String.mk first.data.tail) rest
        else
          match rest with
          | [] => CommandAction.doNothing
          | p :: rest2 => CommandAction.execute p rest2
      else
        match context with
        | some ctx => CommandAction.execute ctx.program (ctx.args ++ (first :: rest))
        | none => CommandAction.execute first rest

/-- `parse_cmd` of `src/parser.rs` (lines 26–114): trim the line, return
`Exit` when the trimmed line is an exit keyword, otherwise tokenize and
dispatch on the tokens (any tokenizer error becomes `Error`).  The Rust
source binds `let line = line.trim()` once and uses it for both the
keyword check and the split; here `rustTrim line` is simply written
twice. -/
def parse_cmd (line : String) (context : Option TargetContext) : CommandAction :=
  if rustTrim line ∈ EXIT_COMMANDS then
    CommandAction.exit
  else
    match shellSplit (rustTrim line) with
    | Except.error e => CommandAction.error e
    | Except.ok args => parse_cmd_tokens args context

-- Sanity checks against the repository's own test-suite expectations
-- (`src/parser.rs`, `mod tests`).
example : parse_cmd "commit -m \"msg\"" (some ⟨"git", []⟩) =
    CommandAction.execute "git" ["commit", "-m", "msg"] := by rfl
example : parse_cmd "  ls    -a      -l  " none =
    CommandAction.execute "ls" ["-a", "-l"] := by rfl
example : parse_cmd "echo 'foo bar'" none =
    CommandAction.execute "echo" ["foo bar"] := by rfl
example : parse_cmd "add src\\main.rs" (some ⟨"git", []⟩) =
    CommandAction.execute "git" ["add", "srcmain.rs"] := by rfl
example : parse_cmd "echo \"hello" none =
    CommandAction.error "missing closing quote" := by rfl
example : parse_cmd "!    ls -h" (some ⟨"git", []⟩) =
    CommandAction.execute "ls" ["-h"] := by rfl
example : parse_cmd "! ls -h" (some ⟨"git", []⟩) =
    CommandAction.execute "ls" ["-h"] := by rfl
example : parse_cmd "!" (some ⟨"git", []⟩) = CommandAction.doNothing := by rfl
example : parse_cmd "cd dir1 dir2" none =
    CommandAction.changeDirectory (some "dir1") := by rfl
example : parse_cmd "exit" (some ⟨"git", []⟩) = CommandAction.exit := by rfl
example : parse_cmd "q" none = CommandAction.exit := by rfl
example : parse_cmd "" (some ⟨"git", []⟩) =
    CommandAction.execute "git" [] := by rfl
example : parse_cmd "" none = CommandAction.doNothing := by rfl
example : parse_cmd "history 10" none = CommandAction.history := by rfl
example : parse_cmd "pwd -L" none = CommandAction.pwd ["-L"] := by rfl
example : parse_cmd "clear -x" none = CommandAction.clear ["-x"] := by rfl
example : parse_cmd "cls" none = CommandAction.clear [] := by rfl
example : parse_cmd "help me" none = CommandAction.help := by rfl

/-! ## `src/executor.rs` -/

/-- `compute_next_stack` of `src/executor.rs` (lines 21–46): the pure
function folding the inherited stack descriptor and the current
invocation's context program into the descriptor for the next child.
The Rust `format!("{}/{}", parent, ctx)` and `format!("{}/", parent)`
are string concatenations. -/
def compute_next_stack (parent_stack : Option String) (current_ctx : Option String) :
    String :=
  match parent_stack with
  | some parent =>
      match current_ctx with
      | some ctx => parent ++ "/" ++ ctx
      | none => parent ++ "/"
  | none =>
      match current_ctx with
      | some ctx => ctx
      | none => ""

-- Sanity checks against the test suite of `src/executor.rs`.
example : compute_next_stack none (some "git") = "git" := by rfl
example : compute_next_stack none none = "" := by rfl
example : compute_next_stack (some "git") (some "cargo") = "git/cargo" := by rfl
example : compute_next_stack (some "git") none = "git/" := by rfl
example : compute_next_stack (some "") (some "git") = "/git" := by rfl
example : compute_next_stack (some "") none = "/" := by rfl
example : compute_next_stack (some "git/cargo") (some "bun") = "git/cargo/bun" := by rfl
example : compute_next_stack (some "/") none = "//" := by rfl

/-- What the operating system reports back to `child.wait()` in
`execute_child_process` (`src/executor.rs` lines 70–82): either the
child exited and `status.code()` is an optional exit code (`none` when
the child was killed by a signal), or the wait itself failed. -/
inductive WaitOutcome where
  | exited (code : Option Int)
  | waitError (msg : String)
  deriving DecidableEq, Repr

/-- Result of one `command.spawn()` attempt (`src/executor.rs` line 67):
either a child was spawned and eventually waited on, or the spawn failed
(program not found / not executable). -/
inductive SpawnOutcome where
  | spawned (wait : WaitOutcome)
  | spawnError (msg : String)
  deriving DecidableEq, Repr

/-- What `execute_child_process` does to the control flow of the calling
REPL after the spawn/wait: either it terminates the current process with
the given exit code (`process::exit`), or control returns to the loop
(error messages on `stderr` are side effects outside this model). -/
inductive RunnerResult where
  | exitCurrentProcess (code : Int)
  | returnToLoop
  deriving DecidableEq, Repr

/-- The control-flow skeleton of `execute_child_process`
(`src/executor.rs` lines 50–88): on a successful spawn, wait; if the
child's exit code is `Some 127`, terminate the current process with 127;
every other wait outcome — a different exit code, a signal death with no
code, or a wait error — falls through and returns to the loop, as does a
spawn error. -/
def execute_child_process (spawn : SpawnOutcome) : RunnerResult :=
  match spawn with
  | SpawnOutcome.spawned (WaitOutcome.exited (some code)) =>
      if code = 127 then RunnerResult.exitCurrentProcess 127
      else RunnerResult.returnToLoop
  | SpawnOutcome.spawned (WaitOutcome.exited none) => RunnerResult.returnToLoop
  | SpawnOutcome.spawned (WaitOutcome.waitError _) => RunnerResult.returnToLoop
  | SpawnOutcome.spawnError _ => RunnerResult.returnToLoop

example : execute_child_process (.spawned (.exited (some 127))) =
    RunnerResult.exitCurrentProcess 127 := by rfl
example : execute_child_process (.spawned (.exited (some 1))) =
    RunnerResult.returnToLoop := by rfl

/-! ## `src/main.rs` -/

/-- Outcome of the argument validation at the top of `main`
(`src/main.rs` lines 185–200): with any argument count other than two
(the program name plus exactly one command), print usage and exit with
code 1; otherwise enter the REPL bound to `args[1]`. -/
inductive StartupOutcome where
  | usageExit (code : Int)
  | runRepl (targetCmd : String)
  deriving DecidableEq, Repr

/-- The startup argument validation of `main` (`src/main.rs` lines
185–200).  The Rust code tests `args.len() != 2` and exits 1, else uses
`&args[1]`; a list has length two exactly when it matches
`[argv0, target]`. -/
def mainStartup : List String → StartupOutcome
  | [_argv0, target] => StartupOutcome.runRepl target
  | _ => StartupOutcome.usageExit 1

example : mainStartup ["with", "git"] = StartupOutcome.runRepl "git" := by rfl
example : mainStartup ["with"] = StartupOutcome.usageExit 1 := by rfl

/-! ## `src/context.rs` -/

/-- UTF-8 encoded size in bytes of one character (what Rust's `str`
byte indices count). -/
def charBytes (c : Char) : Nat :=
  if c.toNat ≤ 0x7F then 1
  else if c.toNat ≤ 0x7FF then 2
  else if c.toNat ≤ 0xFFFF then 3
  else 4

/-- UTF-8 byte length of a string: Rust `str::len`. -/
def strBytes (s : String) : Nat := (s.data.map charBytes).sum

/-- Take the characters making up exactly the first `n` bytes of a
string, or `none` when byte index `n` does not fall on a character
boundary — the situation in which a Rust slice `s[..n]` panics. -/
def takeBytesAux : List Char → Nat → Option (List Char)
  | _, 0 => some []
  | [], _ + 1 => none
  | c :: cs, n + 1 =>
      if charBytes c ≤ n + 1 then
        (takeBytesAux cs (n + 1 - charBytes c)).map (c :: ·)
      else none

/-- Rust `str::strip_prefix`, character by character: `some` of the
remainder when the first list is a prefix of the second. -/
def stripPrefixChars : List Char → List Char → Option (List Char)
  | [], cs => some cs
  | _ :: _, [] => none
  | p :: ps, c :: cs => if c = p then stripPrefixChars ps cs else none

/-- Result of running a piece of Rust code that can panic: either a
value or a panic. -/
inductive RustOutcome (α : Type) where
  | value (a : α)
  | panicked
  deriving DecidableEq, Repr

/-- `parse_git_head` of `src/context.rs` (lines 21–35): trim the file
content; if it starts with `"ref: refs/heads/"` return the branch name
after the prefix; otherwise, when the trimmed content is at least 7
bytes long, return its first 7 bytes (`content[..7]` — a byte slice that
panics when byte 7 is not a character boundary, which the model makes
explicit); otherwise return `None`. -/
def parse_git_head (content : String) : RustOutcome (Option String) :=
  match stripPrefixChars "ref: refs/heads/".data (rustTrim content).data with
  | some branch => RustOutcome.value (some (String.mk branch))
  | none =>
      if 7 ≤ strBytes (rustTrim content) then
        match takeBytesAux (rustTrim content).data 7 with
        | some pre => RustOutcome.value (some (String.mk pre))
        | none => RustOutcome.panicked
      else RustOutcome.value none

-- Sanity checks against the test suite of `src/context.rs`.
example : parse_git_head "ref: refs/heads/main\n" =
    RustOutcome.value (some "main") := by rfl
example : parse_git_head "a1b2c3d4e5f67890abcdef1234567890abcdef12" =
    RustOutcome.value (some "a1b2c3d") := by rfl
example : parse_git_head "short" = RustOutcome.value none := by rfl
example : parse_git_head "ref: refs/heads/feature/new-ui\n" =
    RustOutcome.value (some "feature/new-ui") := by rfl
example : parse_git_head "   ref: refs/heads/dev   \n" =
    RustOutcome.value (some "dev") := by rfl
example : parse_git_head "1234567" = RustOutcome.value (some "1234567") := by rfl
example : parse_git_head "123456" = RustOutcome.value none := by rfl
example : parse_git_head "" = RustOutcome.value none := by rfl
-- Reachable panic: five two-byte characters, 10 bytes total, byte 7
-- is mid-character.
example : parse_git_head "ααααα" = RustOutcome.panicked := by rfl

/-! ## Helper lemmas -/

/-- Every exit keyword tokenizes to exactly itself. -/
lemma shellSplit_exit_self (t : String) (h : t ∈ EXIT_COMMANDS) :
    shellSplit t = Except.ok [t] := by
  have h' : t = "e" ∨ t = "q" ∨ t = "exit" ∨ t = "quit" := by
    simpa [EXIT_COMMANDS] using h
  rcases h' with rfl | rfl | rfl | rfl <;> rfl

/-- A line whose tokenization has a first token outside the exit list is
itself (trimmed) not an exit keyword. -/
lemma not_exit_of_split_cons (line first : String) (rest : List String)
    (hsplit : shellSplit (rustTrim line) = Except.ok (first :: rest))
    (hfirst : first ∉ EXIT_COMMANDS) :
    rustTrim line ∉ EXIT_COMMANDS := by
  intro hmem
  rw [shellSplit_exit_self _ hmem] at hsplit
  have h1 : rustTrim line = first ∧ ([] : List String) = rest := by
    simpa using hsplit
  exact hfirst (h1.1 ▸ hmem)

/-- A line that tokenizes to the empty sequence is not an exit keyword. -/
lemma not_exit_of_split_nil (line : String)
    (hsplit : shellSplit (rustTrim line) = Except.ok []) :
    rustTrim line ∉ EXIT_COMMANDS := by
  intro hmem
  rw [shellSplit_exit_self _ hmem] at hsplit
  simp at hsplit

/-- A line whose tokenization fails is not an exit keyword. -/
lemma not_exit_of_split_err (line e : String)
    (hsplit : shellSplit (rustTrim line) = Except.error e) :
    rustTrim line ∉ EXIT_COMMANDS := by
  intro hmem
  rw [shellSplit_exit_self _ hmem] at hsplit
  simp at hsplit

/-- Unfolding `parse_cmd` on a successfully tokenized, non-exit line. -/
lemma parse_cmd_ok (line : String) (ctx : Option TargetContext) (args : List String)
    (hsplit : shellSplit (rustTrim line) = Except.ok args)
    (hex : rustTrim line ∉ EXIT_COMMANDS) :
    parse_cmd line ctx = parse_cmd_tokens args ctx := by
  unfold parse_cmd
  rw [if_neg hex, hsplit]

/-- Token dispatch for the `cd` built-in. -/
lemma tokens_cd (rest : List String) (ctx : Option TargetContext) :
    parse_cmd_tokens ("cd" :: rest) ctx = CommandAction.changeDirectory rest.head? := rfl

/-- Token dispatch for the `clear` built-in. -/
lemma tokens_clear (rest : List String) (ctx : Option TargetContext) :
    parse_cmd_tokens ("clear" :: rest) ctx = CommandAction.clear rest := rfl

/-- Token dispatch for the `cls` alias. -/
lemma tokens_cls (rest : List String) (ctx : Option TargetContext) :
    parse_cmd_tokens ("cls" :: rest) ctx = CommandAction.clear rest := rfl

/-- Token dispatch for the `pwd` built-in. -/
lemma tokens_pwd (rest : List String) (ctx : Option TargetContext) :
    parse_cmd_tokens ("pwd" :: rest) ctx = CommandAction.pwd rest := rfl

/-- Token dispatch for the `history` built-in. -/
lemma tokens_history (rest : List String) (ctx : Option TargetContext) :
    parse_cmd_tokens ("history" :: rest) ctx = CommandAction.history := rfl

/-- Token dispatch for the `help` built-in. -/
lemma tokens_help (rest : List String) (ctx : Option TargetContext) :
    parse_cmd_tokens ("help" :: rest) ctx = CommandAction.help := rfl

/-- Token dispatch for a first token beginning with the escape marker. -/
lemma tokens_escape (first : String) (rest : List String) (ctx : Option TargetContext)
    (h : first.data.head? = some '!') :
    parse_cmd_tokens (first :: rest) ctx =
      if 1 < first.data.length then
        CommandAction.execute (String.mk first.data.tail) rest
      else
        match rest with
        | [] => CommandAction.doNothing
        | p :: rest2 => CommandAction.execute p rest2 := by
  have h1 : ¬ first = "cd" := by rintro rfl; exact absurd h (by decide)
  have h2 : ¬ (first = "clear" ∨ first = "cls") := by
    rintro (rfl | rfl) <;> exact absurd h (by decide)
  have h3 : ¬ first = "pwd" := by rintro rfl; exact absurd h (by decide)
  have h4 : ¬ first = "history" := by rintro rfl; exact absurd h (by decide)
  have h5 : ¬ first = "help" := by rintro rfl; exact absurd h (by decide)
  simp only [parse_cmd_tokens]
  rw [if_neg h1, if_neg h2, if_neg h3, if_neg h4, if_neg h5, if_pos h]

/-- The escape branch never looks at the bound context. -/
lemma tokens_escape_ctx_irrelevant (first : String) (rest : List String)
    (ctx₁ ctx₂ : Option TargetContext) (h : first.data.head? = some '!') :
    parse_cmd_tokens (first :: rest) ctx₁ = parse_cmd_tokens (first :: rest) ctx₂ := by
  rw [tokens_escape first rest ctx₁ h, tokens_escape first rest ctx₂ h]

/-- Token dispatch never produces the `Error` variant. -/
lemma tokens_ne_error (args : List String) (ctx : Option TargetContext) (e : String) :
    parse_cmd_tokens args ctx ≠ CommandAction.error e := by
  rcases args with _ | ⟨first, rest⟩
  · rcases ctx with _ | c <;> simp [parse_cmd_tokens]
  · simp only [parse_cmd_tokens]
    split_ifs <;> (try split) <;> simp

/-- Token dispatch never produces the `Exit` variant. -/
lemma tokens_ne_exit (args : List String) (ctx : Option TargetContext) :
    parse_cmd_tokens args ctx ≠ CommandAction.exit := by
  rcases args with _ | ⟨first, rest⟩
  · rcases ctx with _ | c <;> simp [parse_cmd_tokens]
  · simp only [parse_cmd_tokens]
    split_ifs <;> (try split) <;> simp

/-- The only variant of `CommandAction` that terminates the REPL loop. -/
def isTerminationAction : CommandAction → Bool
  | CommandAction.exit => true
  | _ => false

/-- `Exit` is the unique termination variant of the source's action enum. -/
lemma termination_unique (a : CommandAction) (h : isTerminationAction a = true) :
    a = CommandAction.exit := by
  cases a <;> simp_all [isTerminationAction]

/-! ## Claim theorems -/

/-- C1 (counterexample): the claim asserts two distinct keyword sets
producing two distinct termination results (`TerminateAll` vs
`Terminate`).  In the code there is no such pair: `CommandAction` has a
single termination variant (`Exit`), so no two input lines can resolve
to two different termination actions. -/
theorem exit_keywords_single_action :
    ¬ ∃ s t : String,
        isTerminationAction (parse_cmd s none) = true ∧
        isTerminationAction (parse_cmd t none) = true ∧
        parse_cmd s none ≠ parse_cmd t none := by
  rintro ⟨s, t, hs, ht, hne⟩
  exact hne ((termination_unique _ hs).trans (termination_unique _ ht).symm)

/-- C1 (amended): resolution compares the raw trimmed line, before
tokenization, against the single exit keyword list `["e","q","exit","quit"]`;
the result is `Exit` exactly when the trimmed line is one of these
keywords, so quoting tricks cannot shadow the check (and cannot fake
it). -/
theorem exit_check_on_raw_trimmed_line :
    ∀ (line : String) (ctx : Option TargetContext),
      parse_cmd line ctx = CommandAction.exit ↔ rustTrim line ∈ EXIT_COMMANDS := by
  intro line ctx
  constructor
  · intro h
    by_contra hmem
    unfold parse_cmd at h
    rw [if_neg hmem] at h
    cases hsp : shellSplit (rustTrim line) with
    | error e =>
        rw [hsp] at h
        exact CommandAction.noConfusion
          (show CommandAction.error e = CommandAction.exit from h)
    | ok args =>
        rw [hsp] at h
        exact tokens_ne_exit args ctx
          (show parse_cmd_tokens args ctx = CommandAction.exit from h)
  · intro hmem
    unfold parse_cmd
    rw [if_pos hmem]

/-- C1 (witness): a padded exit keyword is recognized on the trimmed
line, and the same keyword wrapped in quotes — which still tokenizes to
`exit` — is not, because the check runs before tokenization. -/
theorem exit_check_on_raw_trimmed_line_witness :
    parse_cmd " exit " none = CommandAction.exit ∧
    parse_cmd "\"exit\"" none ≠ CommandAction.exit :=
  ⟨(exit_check_on_raw_trimmed_line " exit " none).mpr (by decide),
   fun h => absurd ((exit_check_on_raw_trimmed_line "\"exit\"" none).mp h) (by decide)⟩

/-- C2 (confirmed): after a successful spawn, the runner terminates the
current process — always with code 127 — exactly when the child's exit
code is `Some 127`; every other wait outcome (a different code, death by
signal, a wait error) returns control to the loop. -/
theorem child_exit_127_propagation :
    ∀ w : WaitOutcome,
      (execute_child_process (SpawnOutcome.spawned w) =
          RunnerResult.exitCurrentProcess 127 ↔ w = WaitOutcome.exited (some 127)) ∧
      (∀ c, execute_child_process (SpawnOutcome.spawned w) =
          RunnerResult.exitCurrentProcess c → c = 127) ∧
      (w ≠ WaitOutcome.exited (some 127) →
        execute_child_process (SpawnOutcome.spawned w) = RunnerResult.returnToLoop) := by
  intro w
  rcases w with code | msg
  · rcases code with _ | c
    · simp [execute_child_process]
    · by_cases h : c = 127 <;> simp [execute_child_process, h]
  · simp [execute_child_process]

/-- C2 (witness): the sentinel propagates; a nonzero non-sentinel code
does not. -/
theorem child_exit_127_propagation_witness :
    execute_child_process (SpawnOutcome.spawned (WaitOutcome.exited (some 127))) =
      RunnerResult.exitCurrentProcess 127 ∧
    execute_child_process (SpawnOutcome.spawned (WaitOutcome.exited (some 1))) =
      RunnerResult.returnToLoop :=
  ⟨(child_exit_127_propagation (WaitOutcome.exited (some 127))).1.mpr rfl,
   (child_exit_127_propagation (WaitOutcome.exited (some 1))).2.2 (by decide)⟩

/-- C3 (confirmed): `compute_next_stack` (the spec's `next_descriptor`)
satisfies the exhaustive four-case table, including the two edge
examples `("", "git") ↦ "/git"` and `("git", ∅) ↦ "git/"`. -/
theorem compute_next_stack_table :
    (∀ p, compute_next_stack none (some p) = p) ∧
    compute_next_stack none none = "" ∧
    (∀ s p, compute_next_stack (some s) (some p) = s ++ "/" ++ p) ∧
    (∀ s, compute_next_stack (some s) none = s ++ "/") ∧
    compute_next_stack (some "") (some "git") = "/git" ∧
    compute_next_stack (some "git") none = "git/" :=
  ⟨fun _ => rfl, rfl, fun _ _ => rfl, fun _ => rfl, rfl, rfl⟩

/-- C4 (counterexample): the claim says a line whose first token is the
escape marker never resolves to an `Execute` of `ctx.program`.  But
escaping to a program that happens to bear the bound program's name does
exactly that: with `ctx.program = "git"`, the line `! git` resolves to
an `Execute` whose program is `ctx.program` (and is not a built-in
action either). -/
theorem escape_to_context_program_counterexample :
    parse_cmd "! git" (some (TargetContext.mk "git" ["remote"])) =
      CommandAction.execute (TargetContext.mk "git" ["remote"]).program [] := by rfl

/-- C4 (amended): for every bound context, a line whose first token is
one of the built-in keywords resolves to the corresponding built-in
action — never an `Execute` — and resolves identically with and without
the context; a line whose first token starts with the escape marker also
resolves identically with and without the context (the bound context is
bypassed, though the escaped program may coincidentally equal
`ctx.program`); in particular `pwd` resolves to `Pwd []` under every
context. -/
theorem builtins_win_over_context :
    ∀ (line : String) (ctx : TargetContext) (first : String) (rest : List String),
      shellSplit (rustTrim line) = Except.ok (first :: rest) →
      (first ∈ (["cd", "clear", "cls", "pwd", "history", "help"] : List String) →
        (∀ p a, parse_cmd line (some ctx) ≠ CommandAction.execute p a) ∧
        parse_cmd line (some ctx) = parse_cmd line none) ∧
      (first.data.head? = some '!' →
        parse_cmd line (some ctx) = parse_cmd line none) ∧
      parse_cmd "pwd" (some ctx) = CommandAction.pwd [] := by
  intro line ctx first rest hsplit
  refine ⟨?_, ?_, rfl⟩
  · intro hb
    have hb' : first = "cd" ∨ first = "clear" ∨ first = "cls" ∨
        first = "pwd" ∨ first = "history" ∨ first = "help" := by simpa using hb
    have hfirst_ne : first ∉ EXIT_COMMANDS := by
      rcases hb' with rfl | rfl | rfl | rfl | rfl | rfl <;> decide
    have hex := not_exit_of_split_cons line first rest hsplit hfirst_ne
    rw [parse_cmd_ok line (some ctx) _ hsplit hex, parse_cmd_ok line none _ hsplit hex]
    rcases hb' with rfl | rfl | rfl | rfl | rfl | rfl <;>
      exact ⟨by simp [tokens_cd, tokens_clear, tokens_cls, tokens_pwd,
                      tokens_history, tokens_help],
             by simp [tokens_cd, tokens_clear, tokens_cls, tokens_pwd,
                      tokens_history, tokens_help]⟩
  · intro hbang
    have hfirst_ne : first ∉ EXIT_COMMANDS := by
      intro hmem
      have h' : first = "e" ∨ first = "q" ∨ first = "exit" ∨ first = "quit" := by
        simpa [EXIT_COMMANDS] using hmem
      rcases h' with rfl | rfl | rfl | rfl <;> exact absurd hbang (by decide)
    have hex := not_exit_of_split_cons line first rest hsplit hfirst_ne
    rw [parse_cmd_ok line (some ctx) _ hsplit hex, parse_cmd_ok line none _ hsplit hex]
    exact tokens_escape_ctx_irrelevant first rest _ _ hbang

/-- C4 (witness): `pwd` under a bound `git` context resolves to the
built-in `Pwd []`, identically to the contextless resolution. -/
theorem builtins_win_over_context_witness :
    parse_cmd "pwd" (some (TargetContext.mk "git" ["remote"])) = CommandAction.pwd [] ∧
    parse_cmd "pwd" (some (TargetContext.mk "git" ["remote"])) = parse_cmd "pwd" none :=
  ⟨(builtins_win_over_context "pwd" (TargetContext.mk "git" ["remote"]) "pwd" [] rfl).2.2,
   ((builtins_win_over_context "pwd" (TargetContext.mk "git" ["remote"]) "pwd" [] rfl).1
      (by decide)).2⟩

/-- C5 (confirmed): for every context, a first token starting with the
escape marker resolves as follows: with more than one character the
marker is stripped and the token's remainder is the program with the
remaining tokens as arguments; a lone `!` is discarded and the next
token becomes the program, or `NoOp` when no token remains; and in every
case the resolution is identical to the contextless one. -/
theorem escape_marker_resolution :
    ∀ (line : String) (ctx : Option TargetContext) (first : String) (rest : List String),
      shellSplit (rustTrim line) = Except.ok (first :: rest) →
      first.data.head? = some '!' →
      (1 < first.data.length →
        parse_cmd line ctx = CommandAction.execute (String.mk first.data.tail) rest) ∧
      (first = "!" →
        (rest = [] → parse_cmd line ctx = CommandAction.doNothing) ∧
        (∀ p a, rest = p :: a → parse_cmd line ctx = CommandAction.execute p a)) ∧
      parse_cmd line ctx = parse_cmd line none := by
  intro line ctx first rest hsplit hbang
  have hfirst_ne : first ∉ EXIT_COMMANDS := by
    intro hmem
    have h' : first = "e" ∨ first = "q" ∨ first = "exit" ∨ first = "quit" := by
      simpa [EXIT_COMMANDS] using hmem
    rcases h' with rfl | rfl | rfl | rfl <;> exact absurd hbang (by decide)
  have hex := not_exit_of_split_cons line first rest hsplit hfirst_ne
  refine ⟨?_, ?_, ?_⟩
  · intro hlen
    rw [parse_cmd_ok line ctx _ hsplit hex, tokens_escape first rest ctx hbang,
      if_pos hlen]
  · rintro rfl
    constructor
    · rintro rfl
      rw [parse_cmd_ok line ctx _ hsplit hex]
      rfl
    · rintro p a rfl
      rw [parse_cmd_ok line ctx _ hsplit hex]
      rfl
  · rw [parse_cmd_ok line ctx _ hsplit hex, parse_cmd_ok line none _ hsplit hex]
    exact tokens_escape_ctx_irrelevant first rest _ _ hbang

/-- C5 (witness): `!` alone is `NoOp` and `!ls -h` escapes to
`Execute ls ["-h"]`, both under a bound `git` context. -/
theorem escape_marker_resolution_witness :
    parse_cmd "!" (some (TargetContext.mk "git" ["st"])) = CommandAction.doNothing ∧
    parse_cmd "!ls -h" (some (TargetContext.mk "git" ["st"])) =
      CommandAction.execute "ls" ["-h"] :=
  ⟨((escape_marker_resolution "!" (some (TargetContext.mk "git" ["st"])) "!" []
      rfl rfl).2.1 rfl).1 rfl,
   (escape_marker_resolution "!ls -h" (some (TargetContext.mk "git" ["st"])) "!ls" ["-h"]
      rfl rfl).1 (by decide)⟩

/-- C6 (confirmed): a line that tokenizes to the empty sequence reruns
the bound command with no extra arguments when a context is bound, and
is a `NoOp` otherwise. -/
theorem empty_tokens_rerun_context :
    ∀ (line : String) (ctx : TargetContext),
      shellSplit (rustTrim line) = Except.ok [] →
      parse_cmd line (some ctx) = CommandAction.execute ctx.program ctx.args ∧
      parse_cmd line none = CommandAction.doNothing := by
  intro line ctx h
  have hex := not_exit_of_split_nil line h
  exact ⟨by rw [parse_cmd_ok line (some ctx) [] h hex]; rfl,
         by rw [parse_cmd_ok line none [] h hex]; rfl⟩

/-- C6 (witness): the empty line with a bound `git remote` context
reruns `git remote`; without a context it is a `NoOp`. -/
theorem empty_tokens_rerun_context_witness :
    parse_cmd "" (some (TargetContext.mk "git" ["remote"])) =
      CommandAction.execute "git" ["remote"] ∧
    parse_cmd "" none = CommandAction.doNothing :=
  ⟨(empty_tokens_rerun_context "" (TargetContext.mk "git" ["remote"]) rfl).1,
   (empty_tokens_rerun_context "" (TargetContext.mk "git" ["remote"]) rfl).2⟩

/-- C7 (confirmed): a line whose first token is `cd` resolves, under
every context, to `ChangeDirectory` of the second token when present and
of nothing otherwise — every token beyond the second is ignored. -/
theorem cd_takes_first_path_argument :
    ∀ (line : String) (ctx : Option TargetContext) (rest : List String),
      shellSplit (rustTrim line) = Except.ok ("cd" :: rest) →
      parse_cmd line ctx = CommandAction.changeDirectory rest.head? := by
  intro line ctx rest h
  have hex := not_exit_of_split_cons line "cd" rest h (by decide)
  rw [parse_cmd_ok line ctx _ h hex]
  exact tokens_cd rest ctx

/-- C7 (witness): `cd a b` yields `ChangeDirectory (some "a")`, the
extra argument silently ignored. -/
theorem cd_takes_first_path_argument_witness :
    parse_cmd "cd a b" none = CommandAction.changeDirectory (some "a") :=
  cd_takes_first_path_argument "cd a b" none ["a", "b"] rfl

/-- C8 (confirmed): resolution is a total function into the action enum
(the embedding is total and panic-free by construction), and the
`Error` variant appears exactly when tokenization of the trimmed line
fails, carrying the tokenizer's message. -/
theorem failure_iff_tokenize_error :
    ∀ (line : String) (ctx : Option TargetContext) (e : String),
      parse_cmd line ctx = CommandAction.error e ↔
        shellSplit (rustTrim line) = Except.error e := by
  intro line ctx e
  constructor
  · intro h
    by_cases hmem : rustTrim line ∈ EXIT_COMMANDS
    · unfold parse_cmd at h
      rw [if_pos hmem] at h
      exact absurd h (by simp)
    · unfold parse_cmd at h
      rw [if_neg hmem] at h
      cases hsp : shellSplit (rustTrim line) with
      | error e2 =>
          rw [hsp] at h
          have h' : CommandAction.error e2 = CommandAction.error e := h
          have he : e2 = e := by injection h'
          rw [he]
      | ok args =>
          rw [hsp] at h
          exact absurd (show parse_cmd_tokens args ctx = CommandAction.error e from h)
            (tokens_ne_error args ctx e)
  · intro hsp
    have hmem := not_exit_of_split_err line e hsp
    unfold parse_cmd
    rw [if_neg hmem, hsp]

/-- C8 (witness): the spec's own malformed input, an unterminated
quote, yields the `Error` action with the tokenizer's message. -/
theorem failure_iff_tokenize_error_witness :
    parse_cmd "echo \"unterminated" none =
      CommandAction.error "missing closing quote" :=
  (failure_iff_tokenize_error "echo \"unterminated" none "missing closing quote").mpr rfl

/-- C9 (counterexample): the claim says the startup argument sequence is
optional (absence means bare mode) and may carry the program plus fixed
leading arguments.  The code rejects both: no startup argument exits
with usage code 1 rather than entering bare mode, and a program plus
arguments also exits with code 1. -/
theorem startup_requires_single_argument_counterexample :
    mainStartup ["with"] = StartupOutcome.usageExit 1 ∧
    mainStartup ["with", "git", "status"] = StartupOutcome.usageExit 1 :=
  ⟨rfl, rfl⟩

/-- C9 (amended): the startup argument sequence is required and must be
exactly one argument; any other argument count (none, or two or more)
prints usage and exits with code 1, and the single argument becomes the
bound target command (with no fixed leading arguments). -/
theorem startup_argument_validation :
    (∀ argv0 target, mainStartup [argv0, target] = StartupOutcome.runRepl target) ∧
    (∀ args : List String, args.length ≠ 2 → mainStartup args = StartupOutcome.usageExit 1) := by
  constructor
  · intro a t
    rfl
  · intro args h
    rcases args with _ | ⟨a, _ | ⟨b, _ | ⟨c, t⟩⟩⟩
    · rfl
    · rfl
    · exact absurd rfl h
    · rfl

/-- C9 (witness): `with git` enters the REPL bound to `git`; a bare
`with` exits with the usage error. -/
theorem startup_argument_validation_witness :
    mainStartup ["with", "git"] = StartupOutcome.runRepl "git" ∧
    mainStartup ["with"] = StartupOutcome.usageExit 1 :=
  ⟨startup_argument_validation.1 "with" "git",
   startup_argument_validation.2 ["with"] (by decide)⟩

/-- An ASCII character occupies one UTF-8 byte. -/
lemma charBytes_ascii (c : Char) (h : c.toNat ≤ 127) : charBytes c = 1 := by
  unfold charBytes
  rw [if_pos (by omega)]

/-- For ASCII content the UTF-8 byte length is the character count. -/
lemma strBytes_ascii (cs : List Char) (h : ∀ c ∈ cs, c.toNat ≤ 127) :
    (cs.map charBytes).sum = cs.length := by
  induction cs with
  | nil => rfl
  | cons c cs ih =>
      have hc : charBytes c = 1 := charBytes_ascii c (h c (List.mem_cons_self c cs))
      simp only [List.map_cons, List.sum_cons, List.length_cons, hc,
        ih (fun x hx => h x (List.mem_cons_of_mem c hx))]
      omega

/-- For ASCII content, taking the first `n` bytes never misses a
character boundary and is exactly taking the first `n` characters. -/
lemma takeBytes_ascii (cs : List Char) (n : Nat) (h : ∀ c ∈ cs, c.toNat ≤ 127)
    (hn : n ≤ cs.length) : takeBytesAux cs n = some (cs.take n) := by
  induction cs generalizing n with
  | nil =>
      cases n with
      | zero => rfl
      | succ n => simp at hn
  | cons c cs ih =>
      cases n with
      | zero => rfl
      | succ n =>
          have hc : charBytes c = 1 := charBytes_ascii c (h c (List.mem_cons_self c cs))
          have hn' : n ≤ cs.length := by
            simp only [List.length_cons] at hn
            omega
          simp only [takeBytesAux, hc]
          rw [if_pos (by omega), show n + 1 - 1 = n from by omega,
            ih n (fun x hx => h x (List.mem_cons_of_mem c hx)) hn']
          rfl

/-- C10 (counterexample): the claim says `parse_git_head` is total and
returns an `Option` for every input, including non-ASCII content.  It
is not: on content of five two-byte characters (10 bytes, no character
boundary at byte 7) the byte slice `content[..7]` panics. -/
theorem parse_git_head_panics_on_multibyte :
    parse_git_head "ααααα" = RustOutcome.panicked := by rfl

/-- C10 (amended): restricted to inputs whose trimmed content is ASCII
(which includes everything `.git/HEAD` actually holds), `parse_git_head`
never panics and satisfies the claimed case analysis: the branch name
after the `"ref: refs/heads/"` prefix when it is present, the first
seven bytes (equivalently, for ASCII, seven characters) when the
trimmed content is at least seven bytes long, `None` otherwise.  On
non-ASCII content whose byte 7 is not a character boundary the Rust
byte slice panics instead. -/
theorem parse_git_head_ascii_total :
    ∀ content : String,
      (∀ c ∈ (rustTrim content).data, c.toNat ≤ 127) →
      parse_git_head content ≠ RustOutcome.panicked ∧
      parse_git_head content =
        (match stripPrefixChars "ref: refs/heads/".data (rustTrim content).data with
         | some branch => RustOutcome.value (some (String.mk branch))
         | none =>
             if 7 ≤ (rustTrim content).data.length then
               RustOutcome.value (some (String.mk ((rustTrim content).data.take 7)))
             else
               RustOutcome.value none) := by
  intro content hascii
  have hmain : parse_git_head content =
      (match stripPrefixChars "ref: refs/heads/".data (rustTrim content).data with
       | some branch => RustOutcome.value (some (String.mk branch))
       | none =>
           if 7 ≤ (rustTrim content).data.length then
             RustOutcome.value (some (String.mk ((rustTrim content).data.take 7)))
           else
             RustOutcome.value none) := by
    unfold parse_git_head
    cases hstrip : stripPrefixChars "ref: refs/heads/".data (rustTrim content).data with
    | some branch => rfl
    | none =>
        have hb : strBytes (rustTrim content) = (rustTrim content).data.length :=
          strBytes_ascii (rustTrim content).data hascii
        rw [hb]
        by_cases h7 : 7 ≤ (rustTrim content).data.length
        · rw [if_pos h7, if_pos h7,
            takeBytes_ascii (rustTrim content).data 7 hascii h7]
        · rw [if_neg h7, if_neg h7]
  refine ⟨?_, hmain⟩
  rw [hmain]
  cases hstrip : stripPrefixChars "ref: refs/heads/".data (rustTrim content).data with
  | some branch => simp
  | none =>
      by_cases h7 : 7 ≤ (rustTrim content).data.length
      · rw [if_pos h7]
        simp
      · rw [if_neg h7]
        simp

/-- C10 (witness): a concrete detached-head hash is truncated to its
first seven characters, panic-free. -/
theorem parse_git_head_ascii_total_witness :
    parse_git_head "a1b2c3d4e5" ≠ RustOutcome.panicked ∧
    parse_git_head "a1b2c3d4e5" = RustOutcome.value (some "a1b2c3d") :=
  ⟨(parse_git_head_ascii_total "a1b2c3d4e5" (by decide)).1,
   ((parse_git_head_ascii_total "a1b2c3d4e5" (by decide)).2).trans (by rfl)⟩

end WithWrapper
